import Mathlib

/-!
Shallow embedding of the chianti procedural-generation core
(heightmap composition, Voronoi-like spatial partition, plant placement
pipeline) together with theorems checking the natural-language
specification against this embedding.

JavaScript numbers are modelled as exact rationals; the transcendental
library functions (Math.sin, Math.cos, Math.atan2, Math.sqrt, Math.PI)
and the ambient noise/random sources are explicit parameters, so every
definition is a pure, executable function of its inputs.
-/

namespace Chianti

/-- A 2D point, as in THREE.Vector2. -/
abbrev Vec2 := ℚ × ℚ

/-- Integer square root by Newton iteration (fuel-bounded, converges to
the floor of the real square root). Used to give the model of Math.sqrt
a concrete executable instance for witnesses and counterexamples. -/
def isqrtIter (n : ℕ) : ℕ → ℕ → ℕ
  | 0, g => g
  | f + 1, g =>
    let g2 := (g + n / g) / 2
    if g2 < g then isqrtIter n f g2 else g

/-- Floor integer square root (model instance for Math.sqrt). -/
def isqrt (n : ℕ) : ℕ :=
  if n = 0 then 0 else isqrtIter n n n

/-- Rational model of Math.sqrt: floor integer square root of the floor.
Agrees with the real square root on perfect squares and is monotone. -/
def qsqrt (q : ℚ) : ℚ :=
  (isqrt q.floor.toNat : ℚ)

/-- The transcendental part of the JavaScript Math library, abstracted:
the embedding is parameterized over these functions. -/
structure JSMathEnv where
  sqrt : ℚ → ℚ
  sin : ℚ → ℚ
  cos : ℚ → ℚ
  atan2 : ℚ → ℚ → ℚ
  pi : ℚ

/-- A concrete environment: exact-floor square root, trivial
trigonometric functions (unused by the concrete runs below), and the
float64 value of Math.PI. -/
def envQ : JSMathEnv where
  sqrt := qsqrt
  sin := fun _ => 0
  cos := fun _ => 0
  atan2 := fun _ _ => 0
  pi := 3141592653589793 / 1000000000000000

/-- JavaScript Math.round: floor of x + 1/2 (halves round up). -/
def jsRound (q : ℚ) : ℤ := ⌊q + 1 / 2⌋

/-- THREE.Vector2.distanceTo, via the environment's square root. -/
def distanceTo (env : JSMathEnv) (a b : Vec2) : ℚ :=
  env.sqrt ((a.1 - b.1) ^ 2 + (a.2 - b.2) ^ 2)

/-- JavaScript division, which is a genuine partial operation: dividing
by zero yields NaN/Infinity, modelled as `none`. -/
def jsDiv (a b : ℚ) : Option ℚ :=
  if b = 0 then none else some (a / b)

/-! ### Binary32 rounding

The arrays of this program are Float32Arrays: every store rounds its
float64 value to the nearest binary32. `fround32` models that store for
arguments in the float32 normal range (all values this program stores);
the float64 arithmetic between stores is idealized as exact rational
arithmetic. -/

/-- Locate the binary exponent e with 2^e ≤ q < 2^(e+1) for positive q,
by a fuel-bounded walk from 0. -/
def findEGo (q : ℚ) : ℕ → ℤ → ℤ
  | 0, e => e
  | fuel + 1, e =>
    if (2 : ℚ) ^ (e + 1) ≤ q then findEGo q fuel (e + 1)
    else if q < (2 : ℚ) ^ e then findEGo q fuel (e - 1)
    else e

/-- The binary exponent of a positive rational (300 fuel covers the
whole float range). -/
def findE (q : ℚ) : ℤ := findEGo q 300 0

/-- Round to the nearest integer, ties to even. -/
def roundHalfEven (x : ℚ) : ℤ :=
  let f := ⌊x⌋
  let r := x - f
  if r < 1 / 2 then f
  else if 1 / 2 < r then f + 1
  else if Even f then f else f + 1

/-- Round a positive rational to the nearest binary32 (24-bit mantissa,
ties to even). -/
def froundPos (q : ℚ) : ℚ :=
  let e := findE q
  (roundHalfEven (q / (2 : ℚ) ^ (e - 23)) : ℚ) * (2 : ℚ) ^ (e - 23)

/-- A Float32Array store: round to nearest binary32, ties to even
(normal range; zero stays zero, negatives round symmetrically). -/
def fround32 (q : ℚ) : ℚ :=
  if q = 0 then 0
  else if q < 0 then -froundPos (-q)
  else froundPos q

/-! ### The simplex-noise package

fbm.ts calls createNoise2D() from the simplex-noise npm package on
every invocation with the default ambient Math.random. The package
builds a 512-entry permutation table by a Fisher-Yates shuffle of
0..255 (duplicated), and returns the classic 2D simplex noise function
over that table. It is embedded here so that distinct per-call
permutation draws are concrete, realizable objects: a draw is any table
produced by `buildPermutationTable` from a random tape with values in
[0, 1). The skew constants are the exact float64 values of
0.5 * (Math.sqrt(3) - 1) and (3 - Math.sqrt(3)) / 6. -/

/-- The float64 value of F2 = 0.5 * (Math.sqrt(3) - 1). -/
def simplexF2 : ℚ := 1648431872091733 / 4503599627370496

/-- The float64 value of G2 = (3 - Math.sqrt(3)) / 6. -/
def simplexG2 : ℚ := 951722585092921 / 4503599627370496

/-- The package's grad2 table: twelve gradient pairs, flattened. -/
def grad2 : List ℚ :=
  [1, 1, -1, 1, 1, -1, -1, -1, 1, 0, -1, 0, 1, 0, -1, 0, 0, 1, 0, -1, 0, 1, 0, -1]

/-- buildPermutationTable from the simplex-noise package: p[0..255] = id
is shuffled by `for i in 0..254 { r = i + floor(random() * (256 - i));
swap p[i] p[r] }`, then duplicated to 512 entries. The tape supplies the
successive Math.random() draws. The table is modelled as its lookup
function: each exchange step updates the lookup at the two swapped
indices, and the duplicated upper half is read through k % 256 (the
noise function only reads indices below 512). -/
def buildPermutationTable (rand : ℕ → ℚ) : ℕ → ℕ :=
  let base := (List.range 255).foldl
    (fun p i =>
      let r := i + (⌊rand i * (256 - (i : ℚ))⌋).toNat
      fun k => if k = i then p r else if k = r then p i else p k)
    (fun k => k)
  fun k => base (k % 256)

/-- The 2D simplex noise function of the simplex-noise package over a
given permutation table: skew to simplex cell, pick the triangle, and
sum the three attenuated corner-gradient contributions, scaled by 70.
(The int32 truncation of the package's fastFloor is omitted: all
arguments in this development are small.) -/
def noise2DFrom (perm : ℕ → ℕ) (x y : ℚ) : ℚ :=
  let s := (x + y) * simplexF2
  let i := ⌊x + s⌋
  let j := ⌊y + s⌋
  let t := ((i : ℚ) + (j : ℚ)) * simplexG2
  let x0 := x - ((i : ℚ) - t)
  let y0 := y - ((j : ℚ) - t)
  let i1 : ℕ := if y0 < x0 then 1 else 0
  let j1 : ℕ := if y0 < x0 then 0 else 1
  let x1 := x0 - (i1 : ℚ) + simplexG2
  let y1 := y0 - (j1 : ℚ) + simplexG2
  let x2 := x0 - 1 + 2 * simplexG2
  let y2 := y0 - 1 + 2 * simplexG2
  let ii := (Int.emod i 256).toNat
  let jj := (Int.emod j 256).toNat
  let t0 := 1 / 2 - x0 * x0 - y0 * y0
  let n0 :=
    if 0 ≤ t0 then
      let gi0 := ii + perm jj
      let g0x := grad2.getD (perm gi0 % 12 * 2) 0
      let g0y := grad2.getD (perm gi0 % 12 * 2 + 1) 0
      t0 * t0 * (t0 * t0) * (g0x * x0 + g0y * y0)
    else 0
  let t1 := 1 / 2 - x1 * x1 - y1 * y1
  let n1 :=
    if 0 ≤ t1 then
      let gi1 := ii + i1 + perm (jj + j1)
      let g1x := grad2.getD (perm gi1 % 12 * 2) 0
      let g1y := grad2.getD (perm gi1 % 12 * 2 + 1) 0
      t1 * t1 * (t1 * t1) * (g1x * x1 + g1y * y1)
    else 0
  let t2 := 1 / 2 - x2 * x2 - y2 * y2
  let n2 :=
    if 0 ≤ t2 then
      let gi2 := ii + 1 + perm (jj + 1)
      let g2x := grad2.getD (perm gi2 % 12 * 2) 0
      let g2y := grad2.getD (perm gi2 % 12 * 2 + 1) 0
      t2 * t2 * (t2 * t2) * (g2x * x2 + g2y * y2)
    else 0
  70 * (n0 + n1 + n2)

/-- A Math.random tape of all zeros; Fisher-Yates under it swaps every
index with itself, so the drawn table is the identity permutation. -/
def tapeZero : ℕ → ℚ := fun _ => 0

/-- A Math.random tape whose first two draws steer Fisher-Yates to the
3-cycle sending 0 to 1, 1 to 8 and 8 to 0 (identity elsewhere). -/
def tapeCycle : ℕ → ℚ := fun n =>
  if n = 0 then 3 / 512 else if n = 1 then 7 / 255 else 0

/-! ## Plant placement predicate library (src/utils/plants/placement.ts)

Each method takes the two grid coordinates and, for the stochastic
methods, the ambient `Math.random()` draw made during the call.
JavaScript's `%` is remainder truncated toward zero, i.e. `Int.tmod`. -/

/-- placeEmpty from placement.ts: always false. -/
def placeEmpty (_x _y : ℤ) (_r : ℚ) : Bool := false

/-- placeFull from placement.ts: always true. -/
def placeFull (_x _y : ℤ) (_r : ℚ) : Bool := true

/-- placeRows from placement.ts: worldX % 2 === 0. -/
def placeRows (x _y : ℤ) (_r : ℚ) : Bool := Int.tmod x 2 = 0

/-- placeColumns from placement.ts: worldY % 2 === 0. -/
def placeColumns (_x y : ℤ) (_r : ℚ) : Bool := Int.tmod y 2 = 0

/-- placeCheckerboard from placement.ts: (worldX + worldY) % 2 === 0. -/
def placeCheckerboard (x y : ℤ) (_r : ℚ) : Bool := Int.tmod (x + y) 2 = 0

/-- placeDiagonal from placement.ts: (worldX + worldY) % 3 === 0. -/
def placeDiagonal (x y : ℤ) (_r : ℚ) : Bool := Int.tmod (x + y) 3 = 0

/-- placeDense from placement.ts: Math.random() < 0.8. -/
def placeDense (_x _y : ℤ) (r : ℚ) : Bool := r < 4 / 5

/-- placeRandom from placement.ts: Math.random() < 0.5. -/
def placeRandom (_x _y : ℤ) (r : ℚ) : Bool := r < 1 / 2

/-- placeSparse from placement.ts: Math.random() < 0.2. -/
def placeSparse (_x _y : ℤ) (r : ℚ) : Bool := r < 1 / 5

/-! Reference predicates written from the specification's words, to be
compared with the source library. -/

/-- Spec reference: rows is stated as `y % 2 == 0`. -/
def specRows (_x y : ℤ) : Bool := Int.tmod y 2 = 0

/-- Spec reference: columns is stated as `x % 2 == 0`. -/
def specColumns (x _y : ℤ) : Bool := Int.tmod x 2 = 0

/-- Spec reference: checkerboard is stated as `(x+y) % 2 == 0`. -/
def specCheckerboard (x y : ℤ) : Bool := Int.tmod (x + y) 2 = 0

/-- Amended spec reference for rows, matching the source: `x % 2 == 0`. -/
def specRowsAmended (x _y : ℤ) : Bool := Int.tmod x 2 = 0

/-- Amended spec reference for columns, matching the source: `y % 2 == 0`. -/
def specColumnsAmended (_x y : ℤ) : Bool := Int.tmod y 2 = 0

/-! ## Noise (src/utils/noise/fbm.ts) -/

/-- Row-major traversal order of a width × height grid: the list of
(x, y) pairs visited by `for y { for x { ... } }`, so that position i of
the list corresponds to array index i = y * width + x. -/
def rowMajor (width height : ℕ) : List (ℕ × ℕ) :=
  (List.range height).flatMap fun y => (List.range width).map fun x => (x, y)

/-- The maxAmplitude accumulation loop of generateFBM:
`for i < octaves { maxAmplitude += amplitude; amplitude *= persistence }`. -/
def fbmMaxAmplitude (persistence : ℚ) : ℕ → ℚ → ℚ → ℚ
  | 0, _amplitude, acc => acc
  | k + 1, amplitude, acc => fbmMaxAmplitude persistence k (amplitude * persistence) (acc + amplitude)

/-- The per-sample octave loop of generateFBM, accumulating
`elevation += noise2D(x/scale*frequency, y/scale*frequency) * amplitude`. -/
def fbmElevation (noise2D : ℚ → ℚ → ℚ) (x y scale lacunarity persistence : ℚ) :
    ℕ → ℚ → ℚ → ℚ → ℚ
  | 0, _amplitude, _frequency, acc => acc
  | k + 1, amplitude, frequency, acc =>
    fbmElevation noise2D x y scale lacunarity persistence k
      (amplitude * persistence) (frequency * lacunarity)
      (acc + noise2D (x / scale * frequency) (y / scale * frequency) * amplitude)

/-- generateFBM from fbm.ts. The simplex noise function created by the
(unseeded, per-call) `createNoise2D()` is the `noise2D` parameter; each
sample is stored into a Float32Array (fround32). The final remapping
divides by `2 * maxAmplitude`; this version uses total rational division
(callers in this repository always pass octaves = 4, for which the
divisor is nonzero). -/
def generateFBM (noise2D : ℚ → ℚ → ℚ) (width height : ℕ)
    (scale : ℚ) (octaves : ℤ) (lacunarity persistence : ℚ) : List ℚ :=
  let maxAmplitude := fbmMaxAmplitude persistence octaves.toNat 1 0
  (rowMajor width height).map fun p =>
    fround32 (fbmElevation noise2D p.1 p.2 scale lacunarity persistence octaves.toNat 1 1 0
      / (2 * maxAmplitude) + 1 / 2)

/-- generateFBM with JavaScript division semantics made explicit: the
sample is `none` (NaN) when the divisor `2 * maxAmplitude` is zero,
since fbm.ts has no guard on maxAmplitude. -/
def generateFBMChecked (noise2D : ℚ → ℚ → ℚ) (width height : ℕ)
    (scale : ℚ) (octaves : ℤ) (lacunarity persistence : ℚ) : List (Option ℚ) :=
  let maxAmplitude := fbmMaxAmplitude persistence octaves.toNat 1 0
  (rowMajor width height).map fun p =>
    (jsDiv (fbmElevation noise2D p.1 p.2 scale lacunarity persistence octaves.toNat 1 1 0)
      (2 * maxAmplitude)).map (fun v => fround32 (v + 1 / 2))

/-! ## Hills (src/utils/noise/hill.ts, smootherstep) -/

/-- Modelled from the spec: the file src/utils/noise/smootherstep.ts is
referenced by hill.ts but absent from the sources; the spec describes it
as the quintic interpolation 6t^5 - 15t^4 + 10t^3. -/
def smootherstep (t : ℚ) : ℚ :=
  6 * t ^ 5 - 15 * t ^ 4 + 10 * t ^ 3

/-- generateHill from hill.ts: a radially decaying bump whose outline is
perturbed by angular harmonics, stored into a Float32Array. -/
def generateHill (env : JSMathEnv) (width height : ℕ)
    (centerX centerY radius noiseRadius : ℚ) : List ℚ :=
  (rowMajor width height).map fun p =>
    let dx := (p.1 : ℚ) - centerX
    let dy := (p.2 : ℚ) - centerY
    let dist := env.sqrt (dx * dx + dy * dy)
    let angle := env.atan2 dy dx
    let noise := env.sin (angle * 8) * noiseRadius * (1 / 2)
      + env.cos (angle * 5) * noiseRadius * (1 / 2)
    let effectiveRadius := radius + noise
    if effectiveRadius < dist then 0
    else fround32 (smootherstep (max 0 (min 1 (1 - dist / effectiveRadius))))

/-! ## Heightmap composition (src/utils/noise/heightmap.ts) -/

/-- The highest-point record returned alongside the heightmap. -/
structure HighestPoint where
  x : ℕ
  y : ℕ
  height : ℚ
  deriving DecidableEq

/-- One draw of the seeded random generator in generateHeightmap:
`x = Math.sin(seed++) * 10000; return min + (x - floor(x)) * (max - min)`.
The caller threads the incremented seed. -/
def sRand (env : JSMathEnv) (seed lo hi : ℚ) : ℚ :=
  let x := env.sin seed * 10000
  lo + (x - ⌊x⌋) * (hi - lo)

/-- The hill-construction loop of generateHeightmap: each hill draws
four seeded random values (angle, magnitude, base radius, noise radius),
the seed advancing by one per draw. -/
def mkHills (env : JSMathEnv) (width height : ℕ) (maxHillRadius : ℚ) :
    ℕ → ℚ → List (List ℚ)
  | 0, _seed => []
  | n + 1, seed =>
    let offsetAngle := sRand env seed 0 (2 * env.pi)
    let offsetMagnitude := sRand env (seed + 1) 0 maxHillRadius
    let centerX := (width : ℚ) / 2 + offsetMagnitude * env.cos offsetAngle
    let centerY := (height : ℚ) / 2 + offsetMagnitude * env.sin offsetAngle
    let baseRadius := (1 / 2 + sRand env (seed + 2) 0 (1 / 2)) * maxHillRadius
    let noiseRadius := 1 / 10 * baseRadius * (1 / 2 + sRand env (seed + 3) 0 1)
    generateHill env width height centerX centerY baseRadius noiseRadius
      :: mkHills env width height maxHillRadius n (seed + 4)

/-- The highest-point scan: the running update performed at each grid
cell (`if (!highestPoint || height > highestPoint.height)`). -/
def highestStep (f : ℕ × ℕ → ℚ) (acc : Option HighestPoint) (p : ℕ × ℕ) :
    Option HighestPoint :=
  match acc with
  | none => some ⟨p.1, p.2, f p⟩
  | some hp => if hp.height < f p then some ⟨p.1, p.2, f p⟩ else some hp

/-- The output loop of generateHeightmap: stores the blended height of
every cell (in row-major order) into a Float32Array (fround32) and scans
for the highest point, which tracks the unrounded float64 height, with
blend weights wHill and wNoise on the hill sum and the roughness-scaled
noise layer. -/
def outAndHighest (hillSum fbm : List ℚ) (roughness wHill wNoise : ℚ)
    (width height : ℕ) : List ℚ × Option HighestPoint :=
  let f := fun p : ℕ × ℕ =>
    hillSum.getD (p.2 * width + p.1) 0 * wHill
      + fbm.getD (p.2 * width + p.1) 0 * wNoise * roughness
  ((rowMajor width height).map (fun p => fround32 (f p)),
    (rowMajor width height).foldl (highestStep f) none)

/-- generateHeightmap from src/utils/noise/heightmap.ts (the variant the
scene components import): sums the hills, blends with an FBM layer at
weights 0.6 / 0.4, and records the highest point. It performs no
normalization. The per-call simplex permutation drawn inside
generateFBM is the `noise2D` parameter. -/
def generateHeightmap (env : JSMathEnv) (noise2D : ℚ → ℚ → ℚ)
    (width height : ℕ) (maxHillRadius roughness : ℚ) (numHills : ℕ) (seed : ℚ) :
    List ℚ × Option HighestPoint :=
  let hills := mkHills env width height maxHillRadius numHills seed
  let hillSum := hills.foldl
    (fun acc hill => List.zipWith (fun a b => fround32 (a + b)) acc hill)
    (List.replicate (width * height) 0)
  let fbm := generateFBM noise2D width height 50 4 2 (1 / 2)
  outAndHighest hillSum fbm roughness (3 / 5) (2 / 5) width height

/-- The pre-normalization stage of the repository's normalizing
generateHeightmap revision: hills are averaged (each contribution
divided by numHills) into a Float32Array, the blend weights are
0.7 / 0.3; the samples are float32 stores while the highest point keeps
the unrounded float64 maximum. -/
def generateHeightmapNormRaw (env : JSMathEnv) (noise2D : ℚ → ℚ → ℚ)
    (width height : ℕ) (maxHillRadius roughness : ℚ) (numHills : ℕ) (seed : ℚ) :
    List ℚ × Option HighestPoint :=
  let hills := mkHills env width height maxHillRadius numHills seed
  let hillSum := hills.foldl
    (fun acc hill => List.zipWith (fun a b => fround32 (a + b / (numHills : ℚ))) acc hill)
    (List.replicate (width * height) 0)
  let fbm := generateFBM noise2D width height 50 4 2 (1 / 2)
  outAndHighest hillSum fbm roughness (7 / 10) (3 / 10) width height

/-- The repository's normalizing generateHeightmap revision: after the
scan, if the highest point exists and its height is positive, every
stored sample is divided by the float64 maximum and re-stored into the
Float32Array (so the stored value is fround32(fround32(height)/max)),
and the highest point's height is set to the literal 1. -/
def generateHeightmapNorm (env : JSMathEnv) (noise2D : ℚ → ℚ → ℚ)
    (width height : ℕ) (maxHillRadius roughness : ℚ) (numHills : ℕ) (seed : ℚ) :
    List ℚ × Option HighestPoint :=
  let raw := generateHeightmapNormRaw env noise2D width height maxHillRadius
    roughness numHills seed
  match raw.2 with
  | some hp =>
    if 0 < hp.height then
      (raw.1.map (fun v => fround32 (v / hp.height)), some ⟨hp.x, hp.y, 1⟩)
    else (raw.1, some hp)
  | none => (raw.1, none)

/-! ## Voronoi partition (src/utils/voronoi/index.ts) -/

/-- PlantType from src/types/scene.ts. -/
inductive PlantType where
  | bush
  | bale
  | cypress
  deriving DecidableEq

/-- VoronoiCell from voronoi/index.ts. The placement method is the
realized boolean predicate over world grid coordinates. -/
structure VoronoiCell where
  id : ℕ
  center : Vec2
  plantType : PlantType
  placementMethod : ℤ → ℤ → Bool

/-- VoronoiSystem from voronoi/index.ts. The spatial grid map is
reconstructed from these fields by `buildSpatialGrid` (it is built once
from exactly this data and read-only afterwards). -/
structure VoronoiSystem where
  cells : List VoronoiCell
  width : ℚ
  height : ℚ
  gridSize : ℚ

/-- Whether buildSpatialGrid inserts `cell` into the bucket `key`: the
bucket lies in the clamped range of buckets within
influenceRadius = gridSize * 1.5 of the cell's center. -/
def cellCoversKey (width height gridSize : ℚ) (cell : VoronoiCell) (key : ℤ × ℤ) : Bool :=
  let influenceRadius := gridSize * (3 / 2)
  let minX := max 0 ⌊(cell.center.1 - influenceRadius) / gridSize⌋
  let maxX := min ⌊width / gridSize⌋ ⌊(cell.center.1 + influenceRadius) / gridSize⌋
  let minY := max 0 ⌊(cell.center.2 - influenceRadius) / gridSize⌋
  let maxY := min ⌊height / gridSize⌋ ⌊(cell.center.2 + influenceRadius) / gridSize⌋
  minX ≤ key.1 ∧ key.1 ≤ maxX ∧ minY ≤ key.2 ∧ key.2 ≤ maxY

/-- buildSpatialGrid from voronoi/index.ts, as the lookup function of
the resulting map: the bucket for `key` holds, in insertion order, the
cells whose influence range covers it (a missing key reads as the empty
list, as the query treats an undefined bucket). -/
def buildSpatialGrid (cells : List VoronoiCell) (width height gridSize : ℚ)
    (key : ℤ × ℤ) : List VoronoiCell :=
  cells.filter (fun c => cellCoversKey width height gridSize c key)

/-- The stored spatial grid of a system, as built by generateVoronoiCells. -/
def sysGrid (sys : VoronoiSystem) : ℤ × ℤ → List VoronoiCell :=
  buildSpatialGrid sys.cells sys.width sys.height sys.gridSize

/-- The 3×3 window of bucket offsets scanned by findCellForPoint
(`for dx in -1..1 { for dy in -1..1 }`). -/
def windowOffsets : List (ℤ × ℤ) :=
  [(-1, -1), (-1, 0), (-1, 1), (0, -1), (0, 0), (0, 1), (1, -1), (1, 0), (1, 1)]

/-- The candidate list gathered by findCellForPoint from the query
point's bucket and its 8 neighbours. -/
def windowCandidates (point : Vec2) (sys : VoronoiSystem) : List VoronoiCell :=
  let gridWidth := ⌊point.1 / sys.gridSize⌋
  let gridHeight := ⌊point.2 / sys.gridSize⌋
  windowOffsets.foldl
    (fun acc d => acc ++ sysGrid sys (gridWidth + d.1, gridHeight + d.2)) []

/-- The duplicate-removal step of findCellForPoint: keep each candidate
whose index is the first occurrence of its id. -/
def uniqueById (candidates : List VoronoiCell) : List VoronoiCell :=
  candidates.foldl
    (fun acc c => if acc.any (fun c2 => c2.id = c.id) then acc else acc ++ [c]) []

/-- The closest-cell scan shared by findCellForPoint and its fallback:
start from the first element and keep any strictly closer cell. -/
def closestCell (env : JSMathEnv) (point : Vec2) (first : VoronoiCell)
    (rest : List VoronoiCell) : VoronoiCell :=
  rest.foldl
    (fun best c =>
      if distanceTo env point c.center < distanceTo env point best.center then c else best)
    first

/-- findCellForPointFallback from voronoi/index.ts: linear scan over all
cells (undefined behaviour on an empty system is modelled as none; the
caller only reaches it with a nonempty cell list). -/
def findCellForPointFallback (env : JSMathEnv) (point : Vec2) (sys : VoronoiSystem) :
    Option VoronoiCell :=
  match sys.cells with
  | [] => none
  | first :: rest => some (closestCell env point first rest)

/-- findCellForPoint from voronoi/index.ts: null on an empty system,
otherwise the closest candidate of the 3×3 bucket window (deduplicated
by id), falling back to a full scan when the window is empty. -/
def findCellForPoint (env : JSMathEnv) (point : Vec2) (sys : VoronoiSystem) :
    Option VoronoiCell :=
  match sys.cells with
  | [] => none
  | _ :: _ =>
    match uniqueById (windowCandidates point sys) with
    | [] => findCellForPointFallback env point sys
    | first :: rest => some (closestCell env point first rest)

/-- getPlantDataForPosition from voronoi/index.ts. -/
def getPlantDataForPosition (env : JSMathEnv) (x y : ℚ) (sys : VoronoiSystem) :
    Option (PlantType × (ℤ → ℤ → Bool)) :=
  (findCellForPoint env (x, y) sys).map fun c => (c.plantType, c.placementMethod)

/-- The minimum-distance heuristic of generateVoronoiCells:
`(Math.min(width, height) / Math.sqrt(numCells)) * 0.8`, which is
0.8 × theoreticalMinSpacing. -/
def minDistanceFor (env : JSMathEnv) (width height : ℚ) (numCells : ℕ) : ℚ :=
  min width height / env.sqrt (numCells : ℚ) * (4 / 5)

/-- Assemble a VoronoiSystem from already-scattered cells exactly as
generateVoronoiCells does (gridSize = max(minDistance * 2, 50)). -/
def mkSystem (env : JSMathEnv) (cells : List VoronoiCell) (width height : ℚ) :
    VoronoiSystem :=
  let minDistance := minDistanceFor env width height cells.length
  { cells := cells, width := width, height := height
    gridSize := max (minDistance * 2) 50 }

/-- The heightmap sample read while classifying a seed:
`heightmap[Math.round(center.x) + Math.round(center.y) * width]`, with
JavaScript array semantics (an out-of-range index reads undefined,
modelled as none). -/
def seedSample (heightmap : List ℚ) (width : ℕ) (center : Vec2) : Option ℚ :=
  let index := jsRound center.1 + jsRound center.2 * (width : ℤ)
  if index < 0 then none else heightmap[index.toNat]?

/-- The rejection-sampling do-while loop scattering one seed center:
draw `(Math.random() * width, Math.random() * height)` from the random
tape at position idx, repeat while the attempt count stays below 100 and
the candidate is within minDistance of an existing center. `remaining`
counts the attempts still allowed (99 on entry); the returned flag
records whether the 100-attempt cap was hit. Returns
(center, next tape position, cap reached). -/
def scatterGo (env : JSMathEnv) (rand : ℕ → ℚ) (width height minDistance : ℚ)
    (existing : List Vec2) (idx : ℕ) : ℕ → Vec2 × ℕ × Bool
  | 0 =>
    ((rand idx * width, rand (idx + 1) * height), idx + 2, true)
  | remaining + 1 =>
    let center : Vec2 := (rand idx * width, rand (idx + 1) * height)
    if existing.any (fun e => distanceTo env center e < minDistance) then
      scatterGo env rand width height minDistance existing (idx + 2) remaining
    else (center, idx + 2, false)

/-- The main loop of generateVoronoiCells: scatter each center against
the previously accepted ones, classify it from the heightmap sample at
its rounded coordinates, and append the cell. Alongside each cell the
Boolean records whether its scatter loop hit the 100-attempt cap. -/
def genCellsGo (env : JSMathEnv) (rand : ℕ → ℚ) (width height : ℕ)
    (minDistance : ℚ)
    (getPlantType : ℚ → Option ℚ → ℚ → PlantType)
    (getPlacementMethod : PlantType → ℚ → Option ℚ → ℚ → (ℤ → ℤ → Bool))
    (heightmap : List ℚ) :
    ℕ → ℕ → ℕ → List (VoronoiCell × Bool) → List (VoronoiCell × Bool)
  | 0, _i, _idx, acc => acc
  | k + 1, i, idx, acc =>
    let existing := acc.map (fun cb => cb.1.center)
    let scattered :=
      scatterGo env rand (width : ℚ) (height : ℚ) minDistance existing idx 99
    let center := scattered.1
    let idx2 := scattered.2.1
    let cap := scattered.2.2
    let x := center.1 / (width : ℚ)
    let yv := seedSample heightmap width center
    let z := center.2 / (height : ℚ)
    let plantType := getPlantType x yv z
    let placementMethod := getPlacementMethod plantType x yv z
    genCellsGo env rand width height minDistance getPlantType getPlacementMethod
      heightmap k (i + 1) idx2
      (acc ++ [(⟨i, center, plantType, placementMethod⟩, cap)])

/-- generateVoronoiCells from voronoi/index.ts, instrumented with the
per-seed cap flag. -/
def generateVoronoiCellsFull (env : JSMathEnv) (rand : ℕ → ℚ)
    (width height numCells : ℕ)
    (getPlantType : ℚ → Option ℚ → ℚ → PlantType)
    (getPlacementMethod : PlantType → ℚ → Option ℚ → ℚ → (ℤ → ℤ → Bool))
    (heightmap : List ℚ) : List (VoronoiCell × Bool) :=
  let minDistance := minDistanceFor env (width : ℚ) (height : ℚ) numCells
  genCellsGo env rand width height minDistance getPlantType getPlacementMethod
    heightmap numCells 0 0 []

/-- generateVoronoiCells from voronoi/index.ts: the cells plus the
spatial-grid parameters. -/
def generateVoronoiCells (env : JSMathEnv) (rand : ℕ → ℚ)
    (width height numCells : ℕ)
    (getPlantType : ℚ → Option ℚ → ℚ → PlantType)
    (getPlacementMethod : PlantType → ℚ → Option ℚ → ℚ → (ℤ → ℤ → Bool))
    (heightmap : List ℚ) : VoronoiSystem :=
  let cells := (generateVoronoiCellsFull env rand width height numCells
    getPlantType getPlacementMethod heightmap).map (fun cb => cb.1)
  let minDistance := minDistanceFor env (width : ℚ) (height : ℚ) numCells
  { cells := cells, width := (width : ℚ), height := (height : ℚ)
    gridSize := max (minDistance * 2) 50 }

/-! ## Batch placement pipeline (createScene in components/HillScene.tsx) -/

/-- The grouped placement result: a JavaScript Map from plant type to
the list of world positions, as an insertion-ordered association list. -/
abbrev Groups := List (PlantType × List (ℚ × ℚ × ℚ))

/-- Map.has. -/
def groupsHas (groups : Groups) (t : PlantType) : Bool :=
  groups.any (fun e => e.1 = t)

/-- Map.set: replace the value at an existing key in place, otherwise
append the new entry. -/
def groupsSet (groups : Groups) (t : PlantType) (v : List (ℚ × ℚ × ℚ)) : Groups :=
  if groups.any (fun e => e.1 = t) then
    groups.map (fun e => if e.1 = t then (e.1, v) else e)
  else groups ++ [(t, v)]

/-- Map.get followed by Array.push: append a position to the list stored
at an existing key. -/
def groupsPush (groups : Groups) (t : PlantType) (pos : ℚ × ℚ × ℚ) : Groups :=
  groups.map (fun e => if e.1 = t then (e.1, e.2 ++ [pos]) else e)

/-- The grid positions visited by the placement loop: every (x, y) with
1 ≤ x < gridWidth and 1 ≤ y < gridHeight, y outer, x inner (top and left
edges excluded). -/
def visitedCells (gridWidth gridHeight : ℕ) : List (ℕ × ℕ) :=
  (List.range' 1 (gridHeight - 1)).flatMap fun y =>
    (List.range' 1 (gridWidth - 1)).map fun x => (x, y)

/-- The body of the placement loop for one grid position: query the
partition (skipping the position entirely when no seed exists), ensure
the plant type has a group entry, evaluate the placement predicate and
append the world position on success, then bump processedCount. -/
def placeStep (env : JSMathEnv) (sys : VoronoiSystem) (heightmap : List ℚ)
    (gridWidth gridHeight : ℕ) (plantSpacing heightScale plantSize : ℚ)
    (st : Groups × ℕ) (cell : ℕ × ℕ) : Groups × ℕ :=
  match getPlantDataForPosition env (cell.1 : ℚ) (cell.2 : ℚ) sys with
  | none => st
  | some (plantType, placementMethod) =>
    let groups1 := if groupsHas st.1 plantType then st.1 else groupsSet st.1 plantType []
    let groups2 :=
      if placementMethod (cell.1 : ℤ) (cell.2 : ℤ) then
        let i := cell.2 * gridWidth + cell.1
        let h := heightmap.getD i 0 * heightScale
        let xPosition := ((cell.1 : ℚ) - (gridWidth : ℚ) / 2) * plantSpacing
        let yPosition := h + (if plantType = PlantType.bale then plantSize else plantSize / 2)
        let zPosition := ((cell.2 : ℚ) - (gridHeight : ℚ) / 2) * plantSpacing
        groupsPush groups1 plantType (xPosition, yPosition, zPosition)
      else groups1
    (groups2, st.2 + 1)

/-- The full placement loop of createScene, returning the grouped map
and the final processedCount. -/
def placeLoop (env : JSMathEnv) (sys : VoronoiSystem) (heightmap : List ℚ)
    (gridWidth gridHeight : ℕ) (plantSpacing heightScale plantSize : ℚ) :
    Groups × ℕ :=
  (visitedCells gridWidth gridHeight).foldl
    (placeStep env sys heightmap gridWidth gridHeight plantSpacing heightScale plantSize)
    ([], 0)

/-- createScene's observable result under cooperative cancellation. The
suspension points are the terrain-mesh await (tick 0) and the in-loop
yield taken after every 1000 processed positions (ticks 1, 2, ...);
`flagTick` is the first suspension point at which the caller's
cancellation flag is visible. The code checks the flag right after the
terrain await and again before publishing — the per-cell loop itself
contains no check, so the loop always runs to completion. -/
def runCreateScene (env : JSMathEnv) (sys : VoronoiSystem) (heightmap : List ℚ)
    (gridWidth gridHeight : ℕ) (plantSpacing heightScale plantSize : ℚ)
    (flagTick : ℕ) : Option Groups :=
  if flagTick = 0 then none
  else
    let run := placeLoop env sys heightmap gridWidth gridHeight plantSpacing
      heightScale plantSize
    if flagTick ≤ run.2 / 1000 then none else some run.1

/-- How many grid positions the loop still processes after the
cancellation flag becomes visible at in-loop yield number flagTick
(the yield after the first 1000 * flagTick processed positions). -/
def cellsAfterFlag (processedCount flagTick : ℕ) : ℕ :=
  processedCount - 1000 * flagTick

/-! ## Properties of the closest-cell scan -/

theorem closestCell_cons (env : JSMathEnv) (point : Vec2) (first c : VoronoiCell)
    (rest : List VoronoiCell) :
    closestCell env point first (c :: rest)
      = closestCell env point
          (if distanceTo env point c.center < distanceTo env point first.center
            then c else first) rest := rfl

theorem closestCell_mem (env : JSMathEnv) (point : Vec2) (first : VoronoiCell)
    (rest : List VoronoiCell) :
    closestCell env point first rest ∈ first :: rest := by
  induction rest generalizing first with
  | nil => simp [closestCell]
  | cons c rest ih =>
    rw [closestCell_cons]
    rcases List.mem_cons.mp (ih (if distanceTo env point c.center
        < distanceTo env point first.center then c else first)) with h | h
    · rw [h]
      split
      · exact List.mem_cons_of_mem _ (List.mem_cons_self _ _)
      · exact List.mem_cons_self _ _
    · exact List.mem_cons_of_mem _ (List.mem_cons_of_mem _ h)

theorem closestCell_le (env : JSMathEnv) (point : Vec2) (first : VoronoiCell)
    (rest : List VoronoiCell) :
    ∀ c ∈ first :: rest,
      distanceTo env point (closestCell env point first rest).center
        ≤ distanceTo env point c.center := by
  induction rest generalizing first with
  | nil =>
    intro c hc
    rcases List.mem_cons.mp hc with h | h
    · subst h; simp [closestCell]
    · simp at h
  | cons c2 rest ih =>
    intro c hc
    rw [closestCell_cons]
    set next := if distanceTo env point c2.center
        < distanceTo env point first.center then c2 else first with hnext
    have hle : distanceTo env point next.center ≤ distanceTo env point first.center
        ∧ distanceTo env point next.center ≤ distanceTo env point c2.center := by
      rw [hnext]
      split
      · exact ⟨le_of_lt (by assumption), le_refl _⟩
      · exact ⟨le_refl _, le_of_not_lt (by assumption)⟩
    rcases List.mem_cons.mp hc with h | h
    · subst h
      exact le_trans (ih next next (List.mem_cons_self _ _)) hle.1
    · rcases List.mem_cons.mp h with h2 | h2
      · subst h2
        exact le_trans (ih next next (List.mem_cons_self _ _)) hle.2
      · exact ih next c (List.mem_cons_of_mem _ h2)

theorem foldl_filter_mem {α β : Type} (g : β → List α) (l : List β) :
    ∀ (acc : List α) (x : α), x ∈ l.foldl (fun a d => a ++ g d) acc →
      x ∈ acc ∨ ∃ d ∈ l, x ∈ g d := by
  induction l with
  | nil => intro acc x h; exact Or.inl h
  | cons d l ih =>
    intro acc x h
    rcases ih (acc ++ g d) x h with h2 | h2
    · rcases List.mem_append.mp h2 with h3 | h3
      · exact Or.inl h3
      · exact Or.inr ⟨d, List.mem_cons_self _ _, h3⟩
    · obtain ⟨d2, hd2, hx⟩ := h2
      exact Or.inr ⟨d2, List.mem_cons_of_mem _ hd2, hx⟩

theorem uniqueById_subset (candidates : List VoronoiCell) :
    ∀ c ∈ uniqueById candidates, c ∈ candidates := by
  have key : ∀ (l acc : List VoronoiCell) (c : VoronoiCell),
      c ∈ l.foldl (fun a x =>
        if a.any (fun c2 => c2.id = x.id) then a else a ++ [x]) acc →
      c ∈ acc ∨ c ∈ l := by
    intro l
    induction l with
    | nil => intro acc c h; exact Or.inl h
    | cons x l ih =>
      intro acc c h
      simp only [List.foldl_cons] at h
      rcases ih _ c h with h2 | h2
      · by_cases hx : acc.any (fun c2 => c2.id = x.id)
        · simp [hx] at h2
          exact Or.inl h2
        · simp [hx] at h2
          rcases h2 with h3 | h3
          · exact Or.inl h3
          · exact Or.inr (h3 ▸ List.mem_cons_self _ _)
      · exact Or.inr (List.mem_cons_of_mem _ h2)
  intro c h
  rcases key candidates [] c h with h2 | h2
  · simp at h2
  · exact h2

theorem windowCandidates_subset (point : Vec2) (sys : VoronoiSystem) :
    ∀ c ∈ windowCandidates point sys, c ∈ sys.cells := by
  intro c h
  rcases foldl_filter_mem _ _ _ _ h with h2 | h2
  · simp at h2
  · obtain ⟨d, _, hx⟩ := h2
    exact List.mem_filter.mp hx |>.1

theorem findCellForPoint_mem (env : JSMathEnv) (point : Vec2) (sys : VoronoiSystem)
    (c : VoronoiCell) (h : findCellForPoint env point sys = some c) :
    c ∈ sys.cells := by
  unfold findCellForPoint at h
  cases hc : sys.cells with
  | nil => rw [hc] at h; exact absurd h (by simp)
  | cons first rest =>
    rw [hc] at h
    cases hu : uniqueById (windowCandidates point sys) with
    | nil =>
      rw [hu] at h
      unfold findCellForPointFallback at h
      rw [hc] at h
      simp only [Option.some_inj] at h
      rw [← h]
      exact closestCell_mem env point first rest
    | cons u urest =>
      rw [hu] at h
      simp only [Option.some_inj] at h
      have hmem := closestCell_mem env point u urest
      rw [h] at hmem
      have : c ∈ uniqueById (windowCandidates point sys) := hu ▸ hmem
      exact hc ▸ windowCandidates_subset point sys c
        (uniqueById_subset _ c this)

theorem findCellForPoint_isSome (env : JSMathEnv) (point : Vec2) (sys : VoronoiSystem)
    (h : sys.cells ≠ []) : ∃ c, findCellForPoint env point sys = some c := by
  unfold findCellForPoint
  cases hc : sys.cells with
  | nil => exact absurd hc h
  | cons first rest =>
    cases hu : uniqueById (windowCandidates point sys) with
    | nil =>
      unfold findCellForPointFallback
      rw [hc]
      exact ⟨_, rfl⟩
    | cons u urest => exact ⟨_, rfl⟩

theorem findCellForPoint_of_nil (env : JSMathEnv) (point : Vec2) (sys : VoronoiSystem)
    (h : sys.cells = []) : findCellForPoint env point sys = none := by
  unfold findCellForPoint
  rw [h]

/-! ## Properties of the placement pipeline -/

theorem placeStep_count (env : JSMathEnv) (sys : VoronoiSystem) (heightmap : List ℚ)
    (gridWidth gridHeight : ℕ) (plantSpacing heightScale plantSize : ℚ)
    (st : Groups × ℕ) (cell : ℕ × ℕ)
    (h : (getPlantDataForPosition env (cell.1 : ℚ) (cell.2 : ℚ) sys).isSome) :
    (placeStep env sys heightmap gridWidth gridHeight plantSpacing heightScale
      plantSize st cell).2 = st.2 + 1 := by
  obtain ⟨pd, hpd⟩ := Option.isSome_iff_exists.mp h
  unfold placeStep
  rw [hpd]

theorem placeFold_count (env : JSMathEnv) (sys : VoronoiSystem) (heightmap : List ℚ)
    (gridWidth gridHeight : ℕ) (plantSpacing heightScale plantSize : ℚ)
    (l : List (ℕ × ℕ))
    (h : ∀ cell ∈ l, (getPlantDataForPosition env (cell.1 : ℚ) (cell.2 : ℚ) sys).isSome) :
    ∀ st : Groups × ℕ,
      (l.foldl (placeStep env sys heightmap gridWidth gridHeight plantSpacing
        heightScale plantSize) st).2 = st.2 + l.length := by
  induction l with
  | nil => intro st; simp
  | cons cell l ih =>
    intro st
    rw [List.foldl_cons]
    have hcount := placeStep_count env sys heightmap gridWidth gridHeight
      plantSpacing heightScale plantSize st cell (h cell (List.mem_cons_self _ _))
    rw [ih (fun c hc => h c (List.mem_cons_of_mem _ hc)) _, hcount]
    simp [List.length_cons]
    ring

theorem placeFold_of_nil (env : JSMathEnv) (sys : VoronoiSystem) (heightmap : List ℚ)
    (gridWidth gridHeight : ℕ) (plantSpacing heightScale plantSize : ℚ)
    (hsys : sys.cells = []) (l : List (ℕ × ℕ)) :
    ∀ st : Groups × ℕ,
      l.foldl (placeStep env sys heightmap gridWidth gridHeight plantSpacing
        heightScale plantSize) st = st := by
  induction l with
  | nil => intro st; simp
  | cons cell l ih =>
    intro st
    rw [List.foldl_cons]
    have hnone : getPlantDataForPosition env (cell.1 : ℚ) (cell.2 : ℚ) sys = none := by
      unfold getPlantDataForPosition
      rw [findCellForPoint_of_nil env _ sys hsys]
      rfl
    have hstep : placeStep env sys heightmap gridWidth gridHeight plantSpacing
        heightScale plantSize st cell = st := by
      unfold placeStep
      rw [hnone]
    rw [hstep]
    exact ih st

theorem groupsSet_empty_inv (groups : Groups) (t : PlantType)
    (h : ∀ e ∈ groups, e.2 = []) :
    ∀ e ∈ groupsSet groups t [], e.2 = [] := by
  intro e he
  unfold groupsSet at he
  by_cases hany : groups.any (fun e => e.1 = t)
  · rw [if_pos hany] at he
    obtain ⟨e0, he0, rfl⟩ := List.mem_map.mp he
    split
    · rfl
    · exact h e0 he0
  · rw [if_neg hany] at he
    rcases List.mem_append.mp he with h2 | h2
    · exact h e h2
    · simp at h2
      rw [h2]

theorem placeFold_empty_rules (env : JSMathEnv) (sys : VoronoiSystem)
    (heightmap : List ℚ) (gridWidth gridHeight : ℕ)
    (plantSpacing heightScale plantSize : ℚ)
    (hrules : ∀ c ∈ sys.cells, ∀ x y, c.placementMethod x y = false)
    (l : List (ℕ × ℕ)) :
    ∀ st : Groups × ℕ, (∀ e ∈ st.1, e.2 = []) →
      ∀ e ∈ (l.foldl (placeStep env sys heightmap gridWidth gridHeight plantSpacing
        heightScale plantSize) st).1, e.2 = [] := by
  induction l with
  | nil => intro st h; exact h
  | cons cell l ih =>
    intro st hinv
    rw [List.foldl_cons]
    refine ih _ ?_
    show ∀ e ∈ (placeStep env sys heightmap gridWidth gridHeight plantSpacing
      heightScale plantSize st cell).1, e.2 = []
    unfold placeStep
    cases hpd : getPlantDataForPosition env (cell.1 : ℚ) (cell.2 : ℚ) sys with
    | none => exact hinv
    | some pd =>
      obtain ⟨pt, pm⟩ := pd
      unfold getPlantDataForPosition at hpd
      rcases Option.map_eq_some'.mp hpd with ⟨c, hc, hpd2⟩
      cases hpd2
      have hmem := findCellForPoint_mem env _ sys c hc
      have hfalse : c.placementMethod (cell.1 : ℤ) (cell.2 : ℤ) = false :=
        hrules c hmem _ _
      intro e he
      simp only [hfalse, Bool.false_eq_true, if_false] at he
      by_cases hhas : groupsHas st.1 c.plantType
      · rw [if_pos hhas] at he
        exact hinv e he
      · rw [if_neg hhas] at he
        exact groupsSet_empty_inv st.1 c.plantType hinv e he

/-! ## Properties of seed scattering -/

theorem scatterGo_not_cap (env : JSMathEnv) (rand : ℕ → ℚ)
    (width height minDistance : ℚ) (existing : List Vec2) :
    ∀ (fuel idx : ℕ) (center : Vec2) (idx2 : ℕ),
      scatterGo env rand width height minDistance existing idx fuel
        = (center, idx2, false) →
      ∀ e ∈ existing, ¬(distanceTo env center e < minDistance) := by
  intro fuel
  induction fuel with
  | zero =>
    intro idx center idx2 h
    exact absurd (congrArg (fun r => r.2.2) h) (by simp [scatterGo])
  | succ f ih =>
    intro idx center idx2 h
    unfold scatterGo at h
    by_cases hclose : existing.any
        (fun e => distanceTo env (rand idx * width, rand (idx + 1) * height) e
          < minDistance)
    · rw [if_pos hclose] at h
      exact ih (idx + 2) center idx2 h
    · rw [if_neg hclose] at h
      simp only [Prod.mk.injEq] at h
      intro e he
      rw [← h.1]
      intro hlt
      exact hclose (List.any_eq_true.mpr ⟨e, he, by simpa using hlt⟩)

/-- The pairwise-spacing invariant: within the accumulated cell list,
any later seed whose scatter loop ended before the attempt cap is at
distance at least minDistance from every earlier seed. -/
def PairwiseSpaced (env : JSMathEnv) (minDistance : ℚ)
    (acc : List (VoronoiCell × Bool)) : Prop :=
  ∀ (i j : ℕ) (ci cj : VoronoiCell) (bi : Bool), i < j →
    acc[j]? = some (cj, false) → acc[i]? = some (ci, bi) →
    ¬(distanceTo env cj.center ci.center < minDistance)

theorem genCellsGo_inv (env : JSMathEnv) (rand : ℕ → ℚ) (width height : ℕ)
    (minDistance : ℚ) (getPlantType : ℚ → Option ℚ → ℚ → PlantType)
    (getPlacementMethod : PlantType → ℚ → Option ℚ → ℚ → (ℤ → ℤ → Bool))
    (heightmap : List ℚ) :
    ∀ (k i idx : ℕ) (acc : List (VoronoiCell × Bool)),
      PairwiseSpaced env minDistance acc →
      PairwiseSpaced env minDistance
        (genCellsGo env rand width height minDistance getPlantType
          getPlacementMethod heightmap k i idx acc) := by
  intro k
  induction k with
  | zero => intro i idx acc h; exact h
  | succ k ih =>
    intro i idx acc hinv
    unfold genCellsGo
    refine ih _ _ _ ?_
    intro i2 j2 ci cj bi hij hj hi
    set scattered := scatterGo env rand (width : ℚ) (height : ℚ) minDistance
      (acc.map fun cb => cb.1.center) idx 99 with hscat
    rcases lt_trichotomy j2 acc.length with hlt | heq | hgt
    · rw [List.getElem?_append_left hlt] at hj
      rw [List.getElem?_append_left (lt_trans hij hlt)] at hi
      exact hinv i2 j2 ci cj bi hij hj hi
    · subst heq
      rw [List.getElem?_concat_length] at hj
      simp only [Option.some_inj, Prod.mk.injEq] at hj
      rw [List.getElem?_append_left hij] at hi
      have hcimem : (ci, bi) ∈ acc := by
        have := List.getElem?_eq_some.mp hi
        obtain ⟨hn, hrw⟩ := this
        exact hrw ▸ List.getElem_mem _
      have hcenter : ci.center ∈ acc.map (fun cb => cb.1.center) :=
        List.mem_map.mpr ⟨(ci, bi), hcimem, rfl⟩
      have hcap : scattered.2.2 = false := hj.2
      have hcj : cj.center = scattered.1 := by rw [← hj.1]
      have hnot := scatterGo_not_cap env rand (width : ℚ) (height : ℚ) minDistance
        (acc.map fun cb => cb.1.center) 99 idx scattered.1 scattered.2.1
        (by rw [← hscat, ← hcap])
      rw [hcj]
      exact hnot ci.center hcenter
    · rw [List.getElem?_eq_none (by simp; omega)] at hj
      exact absurd hj (by simp)

/-! ## Lengths of the traversal orders -/

theorem rowMajor_length (width height : ℕ) :
    (rowMajor width height).length = height * width := by
  unfold rowMajor
  rw [List.length_flatMap]
  simp only [Function.comp_def, List.length_map, List.length_range]
  rw [List.map_const', List.sum_replicate, smul_eq_mul, List.length_range]

theorem visitedCells_length (gridWidth gridHeight : ℕ) :
    (visitedCells gridWidth gridHeight).length = (gridHeight - 1) * (gridWidth - 1) := by
  unfold visitedCells
  rw [List.length_flatMap]
  simp only [Function.comp_def, List.length_map, List.length_range']
  rw [List.map_const', List.sum_replicate, smul_eq_mul, List.length_range']

/-! ## The FBM layer is irrelevant at roughness zero -/

theorem outAndHighest_roughness_zero (hillSum fbm1 fbm2 : List ℚ)
    (wHill wNoise : ℚ) (width height : ℕ) :
    outAndHighest hillSum fbm1 0 wHill wNoise width height
      = outAndHighest hillSum fbm2 0 wHill wNoise width height := by
  unfold outAndHighest
  have hf : (fun p : ℕ × ℕ =>
      hillSum.getD (p.2 * width + p.1) 0 * wHill
        + fbm1.getD (p.2 * width + p.1) 0 * wNoise * 0)
      = (fun p : ℕ × ℕ =>
      hillSum.getD (p.2 * width + p.1) 0 * wHill
        + fbm2.getD (p.2 * width + p.1) 0 * wNoise * 0) := by
    funext p
    ring
  rw [hf]

/-! ## Concrete instances used by witnesses and counterexamples -/

/-- The constant zero noise function. It agrees at the origin with
every simplex draw (simplex noise vanishes there for every permutation),
and it is used below only in runs whose grid is 1 x 1, where the FBM
layer samples nothing but the origin. -/
def noiseZero : ℚ → ℚ → ℚ := fun _ _ => 0

/-- A pre-normalization maximum whose float32 store loses almost half an
ulp downward: fround32 badMax = 1, and the re-stored normalized maximum
fround32 (1 / badMax) is 1 - 2^-24, not 1. -/
def badMax : ℚ := 1 + 1 / 2 ^ 24 - 1 / 2 ^ 30

/-- A roughness making the engineered 1 x 1 normalizing run reach the
raw maximum badMax exactly: the single raw height is
(1/2) * (3/10) * badRoughness = badMax. -/
def badRoughness : ℚ := badMax * (20 / 3)

/-- The always-false realized placement predicate. -/
def pmFalse : ℤ → ℤ → Bool := fun _ _ => false

/-- A partition on a 200 × 200 plane with 49 seeds in which the 3×3
bucket window around the query point (25, 25) sees only the seed at
(174, 174), although the seed at (175, 25) is strictly closer. -/
def sysC3 : VoronoiSystem :=
  mkSystem envQ
    (⟨0, (175, 25), PlantType.bush, pmFalse⟩
      :: ⟨1, (174, 174), PlantType.bush, pmFalse⟩
      :: (List.range 47).map (fun k => ⟨k + 2, (195, 5), PlantType.bush, pmFalse⟩))
    200 200

/-- A one-seed partition on a 20 × 20 plane. -/
def cellW : VoronoiCell := ⟨0, (10, 10), PlantType.bush, pmFalse⟩

/-- The system holding only `cellW`. -/
def sysW : VoronoiSystem := mkSystem envQ [cellW] 20 20

/-- A one-seed partition on a 47 × 47 plane, matching a 47 × 47 grid. -/
def sys1 : VoronoiSystem := mkSystem envQ [⟨0, (23, 23), PlantType.bush, pmFalse⟩] 47 47

/-- A flat 47 × 47 heightmap. -/
def hm47 : List ℚ := List.replicate (47 * 47) 0

/-- A one-seed partition on a 3 × 3 plane whose only placement rule is
the always-empty predicate. -/
def sysE : VoronoiSystem := mkSystem envQ [⟨0, (1, 1), PlantType.bush, pmFalse⟩] 3 3

/-- A flat 3 × 3 heightmap. -/
def hmE : List ℚ := List.replicate 9 0

/-- A partition with no seeds. -/
def sysEmpty : VoronoiSystem := mkSystem envQ [] 1 1

/-- Trivial classification callback (constant plant type). -/
def gptBush : ℚ → Option ℚ → ℚ → PlantType := fun _ _ _ => PlantType.bush

/-- Trivial placement-rule callback. -/
def gpmFalse : PlantType → ℚ → Option ℚ → ℚ → (ℤ → ℤ → Bool) := fun _ _ _ _ => pmFalse

/-- The cell scattered first by the all-zero random tape on a 1 × 1
plane (accepted immediately: no earlier seeds). -/
def cellC7a : VoronoiCell := ⟨0, (0, 0), PlantType.bush, pmFalse⟩

/-- The cell scattered second by the all-zero random tape: every one of
its 100 candidates coincides with the first seed, so the attempt cap is
hit and the last candidate is accepted anyway. -/
def cellC7b : VoronoiCell := ⟨1, (0, 0), PlantType.bush, pmFalse⟩

/-! ## Claims -/

/-- C4: whenever the partition holds at least one seed, findCellForPoint
returns a non-null cell for every query point, and the full-scan
fallback itself also terminates with a result. -/
theorem findCellForPoint_total (env : JSMathEnv) (point : Vec2) (sys : VoronoiSystem)
    (h : sys.cells ≠ []) :
    (∃ c, findCellForPoint env point sys = some c)
    ∧ (∃ c, findCellForPointFallback env point sys = some c) := by
  refine ⟨findCellForPoint_isSome env point sys h, ?_⟩
  unfold findCellForPointFallback
  cases hc : sys.cells with
  | nil => exact absurd hc h
  | cons first rest => exact ⟨_, rfl⟩

/-- Witness for C4: a concrete one-seed system and query point. -/
theorem findCellForPoint_total_witness :
    sysW.cells ≠ []
    ∧ ((∃ c, findCellForPoint envQ (3, 3) sysW = some c)
      ∧ (∃ c, findCellForPointFallback envQ (3, 3) sysW = some c)) :=
  ⟨List.cons_ne_nil _ _,
    findCellForPoint_total envQ (3, 3) sysW (List.cons_ne_nil _ _)⟩

/-- C6 counterexample: the spec swaps rows and columns. The source's
placeRows tests the first coordinate (x % 2 == 0), not y % 2 == 0 as the
spec states, and symmetrically for placeColumns: at (x, y) = (1, 0) the
code returns false where the spec's reference definition returns true. -/
theorem placement_rows_columns_cex :
    placeRows 1 0 0 = false ∧ specRows 1 0 = true
    ∧ placeColumns 0 1 0 = false ∧ specColumns 0 1 = true := by
  decide

/-- C6 amended: the placement library computes always-false,
always-true, rows as x % 2 == 0, columns as y % 2 == 0, checkerboard as
(x+y) % 2 == 0, and the stochastic predicates accept exactly on uniform
draws below 1/5, 1/2 and 4/5 respectively (hence with those
probabilities). -/
theorem placement_library_spec :
    (∀ (x y : ℤ) (r : ℚ), placeEmpty x y r = false)
    ∧ (∀ (x y : ℤ) (r : ℚ), placeFull x y r = true)
    ∧ (∀ (x y : ℤ) (r : ℚ), placeRows x y r = specRowsAmended x y)
    ∧ (∀ (x y : ℤ) (r : ℚ), placeColumns x y r = specColumnsAmended x y)
    ∧ (∀ (x y : ℤ) (r : ℚ), placeCheckerboard x y r = specCheckerboard x y)
    ∧ (∀ (x y : ℤ) (r : ℚ), 0 ≤ r → r < 1 → (placeSparse x y r = true ↔ r < 1 / 5))
    ∧ (∀ (x y : ℤ) (r : ℚ), 0 ≤ r → r < 1 → (placeRandom x y r = true ↔ r < 1 / 2))
    ∧ (∀ (x y : ℤ) (r : ℚ), 0 ≤ r → r < 1 → (placeDense x y r = true ↔ r < 4 / 5)) := by
  refine ⟨fun _ _ _ => rfl, fun _ _ _ => rfl, fun _ _ _ => rfl, fun _ _ _ => rfl,
    fun _ _ _ => rfl, ?_, ?_, ?_⟩
  all_goals
    intro x y r _ _
    exact decide_eq_true_iff

/-- Witness for C6: the sparse predicate evaluated at the concrete draw
1/10 with its hypotheses discharged. -/
theorem placement_library_spec_witness :
    (0 : ℚ) ≤ 1 / 10 ∧ (1 / 10 : ℚ) < 1
    ∧ (placeSparse 0 0 (1 / 10) = true ↔ (1 / 10 : ℚ) < 1 / 5) :=
  ⟨by norm_num, by norm_num,
    placement_library_spec.2.2.2.2.2.1 0 0 (1 / 10) (by norm_num) (by norm_num)⟩

/-- C8: with octaves ≤ 0 the maxAmplitude accumulator of generateFBM
stays 0 and fbm.ts divides by 2 * 0 without any guard, so under
JavaScript semantics every sample is NaN (none), not the constant 0.5
the spec requires. -/
theorem generateFBM_octaves_le_zero_NaN (noise2D : ℚ → ℚ → ℚ) (width height : ℕ)
    (scale : ℚ) (octaves : ℤ) (lacunarity persistence : ℚ) (h : octaves ≤ 0) :
    generateFBMChecked noise2D width height scale octaves lacunarity persistence
      = List.replicate (width * height) none := by
  have ht : octaves.toNat = 0 := Int.toNat_eq_zero.mpr h
  unfold generateFBMChecked
  rw [ht]
  have hma : fbmMaxAmplitude persistence 0 1 0 = 0 := rfl
  have hdiv : ∀ p : ℕ × ℕ,
      (jsDiv (fbmElevation noise2D (p.1 : ℚ) (p.2 : ℚ) scale lacunarity persistence 0 1 1 0)
        (2 * fbmMaxAmplitude persistence 0 1 0)).map (fun v => fround32 (v + 1 / 2))
      = none := by
    intro p
    rw [hma]
    norm_num [jsDiv]
  simp only [hdiv]
  rw [List.map_const', rowMajor_length, Nat.mul_comm]

/-- Witness for C8: a concrete call with octaves = 0 whose single sample
is NaN. -/
theorem generateFBM_octaves_le_zero_NaN_witness :
    (0 : ℤ) ≤ 0
    ∧ generateFBMChecked noiseZero 1 1 50 0 2 (1 / 2) = List.replicate 1 none :=
  ⟨le_refl 0, generateFBM_octaves_le_zero_NaN noiseZero 1 1 50 0 2 (1 / 2) (le_refl 0)⟩

/-- C10: for every plane with width, height ≥ 1 there are in-bounds seed
centers (for instance (width - 1/2, height - 1/2)) whose rounded
coordinates address an index past the end of the heightmap, so the
classification callback receives an undefined height sample. -/
theorem seedSample_out_of_bounds (width height : ℕ) (hw : 1 ≤ width) (hh : 1 ≤ height)
    (heightmap : List ℚ) (hlen : heightmap.length = width * height) :
    ∃ center : Vec2,
      (0 ≤ center.1 ∧ center.1 < (width : ℚ) ∧ 0 ≤ center.2 ∧ center.2 < (height : ℚ))
      ∧ seedSample heightmap width center = none := by
  refine ⟨((width : ℚ) - 1 / 2, (height : ℚ) - 1 / 2), ⟨?_, ?_, ?_, ?_⟩, ?_⟩
  · have : (1 : ℚ) ≤ (width : ℚ) := by exact_mod_cast hw
    linarith
  · linarith
  · have : (1 : ℚ) ≤ (height : ℚ) := by exact_mod_cast hh
    linarith
  · linarith
  · have hrx : jsRound ((width : ℚ) - 1 / 2) = (width : ℤ) := by
      unfold jsRound
      have h2 : (width : ℚ) - 1 / 2 + 1 / 2 = (width : ℚ) := by ring
      rw [h2]
      exact_mod_cast Int.floor_natCast width
    have hry : jsRound ((height : ℚ) - 1 / 2) = (height : ℤ) := by
      unfold jsRound
      have h2 : (height : ℚ) - 1 / 2 + 1 / 2 = (height : ℚ) := by ring
      rw [h2]
      exact_mod_cast Int.floor_natCast height
    show (if jsRound ((width : ℚ) - 1 / 2) + jsRound ((height : ℚ) - 1 / 2) * (width : ℤ) < 0
      then none
      else heightmap[(jsRound ((width : ℚ) - 1 / 2)
        + jsRound ((height : ℚ) - 1 / 2) * (width : ℤ)).toNat]?) = none
    rw [hrx, hry]
    have hidx : ((width : ℤ) + (height : ℤ) * (width : ℤ))
        = ((width + height * width : ℕ) : ℤ) := by
      push_cast
      ring
    rw [hidx]
    rw [if_neg (not_lt.mpr (Int.natCast_nonneg _))]
    apply List.getElem?_eq_none
    rw [hlen, Int.toNat_natCast, Nat.mul_comm width height,
      Nat.add_comm width (height * width)]
    exact Nat.le_add_right _ _

/-- Witness for C10: a 1 × 1 heightmap and the center (1/2, 1/2), whose
rounded index 1 + 1 * 1 = 2 is out of bounds. -/
theorem seedSample_out_of_bounds_witness :
    (1 ≤ 1) ∧ ([(0 : ℚ)].length = 1 * 1)
    ∧ ∃ center : Vec2,
      (0 ≤ center.1 ∧ center.1 < (1 : ℚ) ∧ 0 ≤ center.2 ∧ center.2 < (1 : ℚ))
      ∧ seedSample [(0 : ℚ)] 1 center = none :=
  ⟨le_refl 1, rfl, seedSample_out_of_bounds 1 1 (le_refl 1) (le_refl 1) [(0 : ℚ)] rfl⟩

/-- The table drawn from the all-zero tape, in directly-evaluable form:
the shuffle is the identity, so the lookup is k % 256. The C1
counterexample proves this agrees with buildPermutationTable tapeZero on
every index its runs consult. -/
def permIdTable : ℕ → ℕ := fun k => k % 256

/-- The table drawn from tapeCycle, in directly-evaluable form: the
3-cycle 0 to 1 to 8 to 0 on each duplicated half. The C1 counterexample
proves this agrees with buildPermutationTable tapeCycle on every index
its runs consult. -/
def permCycleTable : ℕ → ℕ := fun k =>
  let k2 := k % 256
  if k2 = 0 then 1 else if k2 = 1 then 8 else if k2 = 8 then 0 else k2

set_option maxRecDepth 400000 in
set_option maxHeartbeats 8000000 in
/-- C1 counterexample: generateHeightmap is not deterministic in its
argument tuple alone, because generateFBM calls the unseeded
createNoise2D() on every invocation. Two realizable permutation draws --
the tables Fisher-Yates builds from the tapes tapeZero and tapeCycle,
every tape value proved to lie in [0, 1) -- give different heightmaps
and highest points on a 2 x 1 grid with identical arguments. The runs
sample the noise only at (0, 0) and (x, 0) for x = 1/50, 2/50, 4/50 and
8/50, whose skewed cell is (0, 0) and whose hashed gradient indices stay
below 32, so the two directly-evaluable tables, proved here to agree
with the built tables on 0..31, determine the outputs: the identity
table contributes positive gradient terms at the sampled points, while
the 3-cycle table routes the origin corner to the gradient (0, 1), whose
dot product with the on-axis offsets vanishes. -/
theorem generateHeightmap_determinism_cex :
    (∀ n, 0 ≤ tapeZero n ∧ tapeZero n < 1)
    ∧ (∀ n, 0 ≤ tapeCycle n ∧ tapeCycle n < 1)
    ∧ (∀ k ∈ List.range 32, buildPermutationTable tapeZero k = permIdTable k)
    ∧ (∀ k ∈ List.range 32, buildPermutationTable tapeCycle k = permCycleTable k)
    ∧ generateHeightmap envQ (noise2DFrom permIdTable) 2 1 1 1 0 0
      ≠ generateHeightmap envQ (noise2DFrom permCycleTable) 2 1 1 1 0 0 := by
  refine ⟨?_, ?_, by with_unfolding_all decide, by with_unfolding_all decide, ?_⟩
  · intro n
    unfold tapeZero
    norm_num
  · intro n
    unfold tapeCycle
    by_cases h0 : n = 0
    · rw [if_pos h0]
      norm_num
    · rw [if_neg h0]
      by_cases h1 : n = 1
      · rw [if_pos h1]
        norm_num
      · rw [if_neg h1]
        norm_num
  · have hA : generateHeightmap envQ (noise2DFrom permIdTable) 2 1 1 1 0 0
        = ([13421773 / 67108864, 15767661 / 67108864],
          some ⟨1, 0, 2463697 / 10485760⟩) := by
      with_unfolding_all rfl
    have hB : generateHeightmap envQ (noise2DFrom permCycleTable) 2 1 1 1 0 0
        = ([13421773 / 67108864, 6710543 / 33554432], some ⟨0, 0, 1 / 5⟩) := by
      with_unfolding_all rfl
    rw [hA, hB]
    intro h
    have hx := congrArg (fun r => r.2.map HighestPoint.x) h
    simp at hx

/-- C1 amended: generateHeightmap is deterministic given the argument
tuple together with the per-call FBM noise permutation; in particular at
roughness = 0 the unseeded FBM layer is weighted by zero and the output
is bit-identical across calls regardless of the ambient draw. -/
theorem generateHeightmap_deterministic_roughness_zero (env : JSMathEnv)
    (noiseA noiseB : ℚ → ℚ → ℚ) (width height : ℕ) (maxHillRadius : ℚ)
    (numHills : ℕ) (seed : ℚ) :
    generateHeightmap env noiseA width height maxHillRadius 0 numHills seed
      = generateHeightmap env noiseB width height maxHillRadius 0 numHills seed := by
  unfold generateHeightmap
  exact outAndHighest_roughness_zero _ _ _ _ _ _ _

set_option maxRecDepth 100000 in
/-- C2 counterexample: the shipped generateHeightmap returns the raw
blend with no normalization step, so at a concrete input its highest
point is 1/5 and its maximum sample is not 1; and even the repository's
normalizing revision does not give a maximum sample of exactly 1: in the
engineered run below the pre-normalization float64 maximum is badMax,
the Float32Array re-store of sample / maximum is
fround32 (fround32 badMax / badMax) = 1 - 2^-24, although the returned
HighestPoint.height is set to 1. -/
theorem generateHeightmap_no_normalization_cex :
    ((generateHeightmap envQ noiseZero 1 1 1 1 0 0).2 = some ⟨0, 0, 1 / 5⟩
      ∧ ((1 : ℚ) / 5 ≠ 1)
      ∧ (generateHeightmap envQ noiseZero 1 1 1 1 0 0).1.maximum ≠ some 1)
    ∧ ((generateHeightmapNorm envQ noiseZero 1 1 1 badRoughness 0 0).1.maximum
        = some (1 - 1 / 2 ^ 24)
      ∧ (generateHeightmapNorm envQ noiseZero 1 1 1 badRoughness 0 0).2
        = some ⟨0, 0, 1⟩
      ∧ ((1 : ℚ) - 1 / 2 ^ 24 ≠ 1)) := by
  refine ⟨⟨by with_unfolding_all rfl, by norm_num, ?_⟩,
    by with_unfolding_all rfl, by with_unfolding_all rfl, by norm_num⟩
  have hm : (generateHeightmap envQ noiseZero 1 1 1 1 0 0).1.maximum
      = some (13421773 / 67108864) := by
    with_unfolding_all rfl
  rw [hm]
  intro h
  injection h with h2
  norm_num at h2

set_option maxRecDepth 100000 in
/-- C2 amended: in the repository's normalizing generateHeightmap
revision, whenever the pre-normalization highest point has positive
height, the returned HighestPoint.height is exactly 1 -- it is assigned
the literal 1 after the division pass, under the positive-maximum
guard. The maximum stored sample, by contrast, is the float32 re-store
fround32 (fround32 h / h) of the float64 maximum h, which is not exactly
1 in general: at h = badMax it is 1 - 2^-24. -/
theorem generateHeightmapNorm_highest_point_one (env : JSMathEnv)
    (noise2D : ℚ → ℚ → ℚ) (width height : ℕ) (maxHillRadius roughness : ℚ)
    (numHills : ℕ) (seed : ℚ) (hp0 : HighestPoint)
    (hraw : (generateHeightmapNormRaw env noise2D width height maxHillRadius
      roughness numHills seed).2 = some hp0)
    (hpos : 0 < hp0.height) :
    (generateHeightmapNorm env noise2D width height maxHillRadius roughness
      numHills seed).2 = some ⟨hp0.x, hp0.y, 1⟩
    ∧ fround32 (fround32 badMax / badMax) = 1 - 1 / 2 ^ 24 := by
  constructor
  · have hres : generateHeightmapNorm env noise2D width height maxHillRadius
        roughness numHills seed
        = ((generateHeightmapNormRaw env noise2D width height maxHillRadius
            roughness numHills seed).1.map (fun v => fround32 (v / hp0.height)),
          some ⟨hp0.x, hp0.y, 1⟩) := by
      unfold generateHeightmapNorm
      simp only [hraw]
      simp only [if_pos hpos]
    rw [hres]
  · with_unfolding_all rfl

set_option maxRecDepth 100000 in
/-- Witness for C2 amended: a concrete normalizing run whose raw highest
point is 3/20 > 0 and whose returned highest point has height exactly 1. -/
theorem generateHeightmapNorm_highest_point_one_witness :
    (generateHeightmapNormRaw envQ noiseZero 1 1 1 1 0 0).2 = some ⟨0, 0, 3 / 20⟩
    ∧ (0 : ℚ) < 3 / 20
    ∧ ((generateHeightmapNorm envQ noiseZero 1 1 1 1 0 0).2 = some ⟨0, 0, 1⟩
      ∧ fround32 (fround32 badMax / badMax) = 1 - 1 / 2 ^ 24) :=
  ⟨by with_unfolding_all rfl, by norm_num,
    generateHeightmapNorm_highest_point_one envQ noiseZero 1 1 1 1 0 0 ⟨0, 0, 3 / 20⟩
      (by with_unfolding_all rfl) (by norm_num)⟩

/-- C3 counterexample: the nearest-seed query is not globally nearest.
In sysC3 the in-bounds query point (25, 25) returns the seed at
(174, 174) — the only candidate its 3×3 bucket window sees — although
the partition's seed at (175, 25) is strictly closer (distance 150
versus about 210). -/
theorem findCellForPoint_global_nearest_cex :
    ((findCellForPoint envQ (25, 25) sysC3).map (fun c => (c.id, c.center)))
      = some (1, ((174 : ℚ), (174 : ℚ)))
    ∧ (sysC3.cells.any (fun c => c.center = ((175 : ℚ), (25 : ℚ)))) = true
    ∧ distanceTo envQ (25, 25) ((175 : ℚ), (25 : ℚ))
      < distanceTo envQ (25, 25) ((174 : ℚ), (174 : ℚ)) := by
  refine ⟨by with_unfolding_all decide, by with_unfolding_all decide,
    by with_unfolding_all decide⟩

/-- C3 amended: the returned seed is one of the partition's seeds and is
nearest among the deduplicated candidates of the 3×3 bucket window; when
that window is empty the fallback makes it nearest among all seeds. It
need not be nearest among all seeds when the window is nonempty. -/
theorem findCellForPoint_nearest_among_candidates (env : JSMathEnv) (point : Vec2)
    (sys : VoronoiSystem) (c : VoronoiCell)
    (h : findCellForPoint env point sys = some c) :
    c ∈ sys.cells
    ∧ (∀ c2 ∈ uniqueById (windowCandidates point sys),
        distanceTo env point c.center ≤ distanceTo env point c2.center)
    ∧ (uniqueById (windowCandidates point sys) = [] →
        ∀ c2 ∈ sys.cells,
          distanceTo env point c.center ≤ distanceTo env point c2.center) := by
  refine ⟨findCellForPoint_mem env point sys c h, ?_, ?_⟩
  · intro c2 hc2
    unfold findCellForPoint at h
    cases hc : sys.cells with
    | nil => rw [hc] at h; exact absurd h (by simp)
    | cons first rest =>
      rw [hc] at h
      cases hu : uniqueById (windowCandidates point sys) with
      | nil => rw [hu] at hc2; simp at hc2
      | cons u urest =>
        rw [hu] at h
        simp only [Option.some_inj] at h
        rw [← h]
        rw [hu] at hc2
        exact closestCell_le env point u urest c2 hc2
  · intro hu c2 hc2
    unfold findCellForPoint at h
    cases hc : sys.cells with
    | nil => rw [hc] at h; exact absurd h (by simp)
    | cons first rest =>
      rw [hc] at h
      rw [hu] at h
      unfold findCellForPointFallback at h
      rw [hc] at h
      simp only [Option.some_inj] at h
      rw [← h]
      rw [hc] at hc2
      exact closestCell_le env point first rest c2 hc2

/-- Witness for C3 amended: the one-seed system sysW queried at (5, 5)
returns cellW, which is nearest among the window candidates and among
all seeds. -/
theorem findCellForPoint_nearest_among_candidates_witness :
    findCellForPoint envQ (5, 5) sysW = some cellW
    ∧ (cellW ∈ sysW.cells
      ∧ (∀ c2 ∈ uniqueById (windowCandidates (5, 5) sysW),
          distanceTo envQ (5, 5) cellW.center ≤ distanceTo envQ (5, 5) c2.center)
      ∧ (uniqueById (windowCandidates (5, 5) sysW) = [] →
          ∀ c2 ∈ sysW.cells,
            distanceTo envQ (5, 5) cellW.center ≤ distanceTo envQ (5, 5) c2.center)) :=
  ⟨by with_unfolding_all rfl,
    findCellForPoint_nearest_among_candidates envQ (5, 5) sysW cellW
      (by with_unfolding_all rfl)⟩

/-- C5 counterexample: the per-cell loop contains no cancellation check,
so a flag set at the first in-loop yield (after 1000 processed cells of
the 46 × 46 = 2116 interior cells of a 47 × 47 grid) is followed by 1116
further processed cells — more than one full 1000-cell batch — although
no result is published. -/
theorem pipeline_cancellation_cex :
    runCreateScene envQ sys1 hm47 47 47 1 1 1 1 = none
    ∧ 1000 < cellsAfterFlag (placeLoop envQ sys1 hm47 47 47 1 1 1).2 1 := by
  have hsome : ∀ cell ∈ visitedCells 47 47,
      (getPlantDataForPosition envQ (cell.1 : ℚ) (cell.2 : ℚ) sys1).isSome := by
    intro cell _
    obtain ⟨c, hc⟩ := findCellForPoint_isSome envQ ((cell.1 : ℚ), (cell.2 : ℚ)) sys1
      (List.cons_ne_nil _ _)
    unfold getPlantDataForPosition
    rw [hc]
    rfl
  have hcount : (placeLoop envQ sys1 hm47 47 47 1 1 1).2 = 2116 := by
    unfold placeLoop
    rw [placeFold_count envQ sys1 hm47 47 47 1 1 1 (visitedCells 47 47) hsome ([], 0)]
    rw [visitedCells_length]
  constructor
  · unfold runCreateScene
    rw [if_neg (by norm_num)]
    simp only [hcount]
    rw [if_pos (by norm_num)]
  · rw [hcount]
    unfold cellsAfterFlag
    norm_num

/-- C5 amended: whenever the cancellation flag becomes visible at the
terrain-mesh checkpoint or at any in-loop yield of the run (the loop
itself never checks it and always runs to completion), the pipeline
publishes no result. -/
theorem pipeline_cancel_no_publish (env : JSMathEnv) (sys : VoronoiSystem)
    (heightmap : List ℚ) (gridWidth gridHeight : ℕ)
    (plantSpacing heightScale plantSize : ℚ) (flagTick : ℕ)
    (h : flagTick ≤ (placeLoop env sys heightmap gridWidth gridHeight plantSpacing
      heightScale plantSize).2 / 1000) :
    runCreateScene env sys heightmap gridWidth gridHeight plantSpacing heightScale
      plantSize flagTick = none := by
  unfold runCreateScene
  by_cases h0 : flagTick = 0
  · rw [if_pos h0]
  · rw [if_neg h0]
    simp only [if_pos h]

/-- Witness for C5 amended: a concrete run with the flag visible at the
terrain checkpoint (tick 0) publishes nothing. -/
theorem pipeline_cancel_no_publish_witness :
    0 ≤ (placeLoop envQ sysE hmE 3 3 1 1 1).2 / 1000
    ∧ runCreateScene envQ sysE hmE 3 3 1 1 1 0 = none :=
  ⟨Nat.zero_le _,
    pipeline_cancel_no_publish envQ sysE hmE 3 3 1 1 1 0 (Nat.zero_le _)⟩

/-- C7: any two seeds accepted by generateVoronoiCells are at least
minDistance = 0.8 × (min(width, height) / sqrt(numCells)) apart, unless
the later of the two hit the 100-attempt cap while being scattered. -/
theorem generateVoronoiCells_spacing (env : JSMathEnv) (rand : ℕ → ℚ)
    (width height numCells : ℕ)
    (getPlantType : ℚ → Option ℚ → ℚ → PlantType)
    (getPlacementMethod : PlantType → ℚ → Option ℚ → ℚ → (ℤ → ℤ → Bool))
    (heightmap : List ℚ) (i j : ℕ) (ci cj : VoronoiCell) (bi bj : Bool)
    (hij : i < j)
    (hi : (generateVoronoiCellsFull env rand width height numCells getPlantType
      getPlacementMethod heightmap)[i]? = some (ci, bi))
    (hj : (generateVoronoiCellsFull env rand width height numCells getPlantType
      getPlacementMethod heightmap)[j]? = some (cj, bj)) :
    minDistanceFor env (width : ℚ) (height : ℚ) numCells
      ≤ distanceTo env cj.center ci.center
    ∨ bj = true := by
  cases bj with
  | true => exact Or.inr rfl
  | false =>
    left
    have hinv : PairwiseSpaced env
        (minDistanceFor env (width : ℚ) (height : ℚ) numCells)
        (generateVoronoiCellsFull env rand width height numCells getPlantType
          getPlacementMethod heightmap) := by
      unfold generateVoronoiCellsFull
      apply genCellsGo_inv
      intro i2 j2 ci2 cj2 bi2 _ hj2 _
      simp at hj2
    exact not_lt.mp (hinv i j ci cj bi hij hj hi)

/-- Witness for C7: under the all-zero random tape on a 1 × 1 plane with
two seeds, the second seed repeats the first's position, exhausts its
100 attempts, and is accepted with the cap flag set, so the disjunction
holds by its right side. -/
theorem generateVoronoiCells_spacing_witness :
    (generateVoronoiCellsFull envQ (fun _ => 0) 1 1 2 gptBush gpmFalse [0])[0]?
      = some (cellC7a, false)
    ∧ (generateVoronoiCellsFull envQ (fun _ => 0) 1 1 2 gptBush gpmFalse [0])[1]?
      = some (cellC7b, true)
    ∧ (minDistanceFor envQ 1 1 2 ≤ distanceTo envQ cellC7b.center cellC7a.center
      ∨ true = true) :=
  ⟨by with_unfolding_all rfl, by with_unfolding_all rfl,
    generateVoronoiCells_spacing envQ (fun _ => 0) 1 1 2 gptBush gpmFalse [0]
      0 1 cellC7a cellC7b false true (by norm_num)
      (by with_unfolding_all rfl) (by with_unfolding_all rfl)⟩

/-- C9 counterexample: with one seed whose placement rule is
always-empty, the pipeline over a 3 × 3 grid returns a grouped map that
is not empty: it holds an entry for the seed's plant type whose position
list is empty, because the group entry is created before the placement
predicate is evaluated. -/
theorem placeObjects_empty_rule_cex :
    (placeLoop envQ sysE hmE 3 3 1 1 1).1 = [(PlantType.bush, [])]
    ∧ ([(PlantType.bush, [])] : Groups) ≠ [] := by
  refine ⟨by with_unfolding_all decide, by simp⟩

/-- C9 amended: with zero partition cells the pipeline's grouped map is
empty, and with every placement rule always-empty no position is ever
emitted — every group list in the returned map is empty (though the map
itself carries an empty entry per encountered plant type). -/
theorem placeObjects_empty (env : JSMathEnv) (sys : VoronoiSystem)
    (heightmap : List ℚ) (gridWidth gridHeight : ℕ)
    (plantSpacing heightScale plantSize : ℚ) :
    (sys.cells = [] →
      (placeLoop env sys heightmap gridWidth gridHeight plantSpacing heightScale
        plantSize).1 = [])
    ∧ ((∀ c ∈ sys.cells, ∀ x y, c.placementMethod x y = false) →
      ∀ e ∈ (placeLoop env sys heightmap gridWidth gridHeight plantSpacing
        heightScale plantSize).1, e.2 = []) := by
  constructor
  · intro hnil
    unfold placeLoop
    rw [placeFold_of_nil env sys heightmap gridWidth gridHeight plantSpacing
      heightScale plantSize hnil (visitedCells gridWidth gridHeight) ([], 0)]
  · intro hrules
    unfold placeLoop
    exact placeFold_empty_rules env sys heightmap gridWidth gridHeight plantSpacing
      heightScale plantSize hrules (visitedCells gridWidth gridHeight) ([], 0)
      (by intro e he; simp at he)

/-- Witness for C9 amended: the zero-cell system yields the empty
grouped map. -/
theorem placeObjects_empty_witness :
    sysEmpty.cells = []
    ∧ (placeLoop envQ sysEmpty [] 1 1 1 1 1).1 = [] :=
  ⟨rfl, (placeObjects_empty envQ sysEmpty [] 1 1 1 1 1).1 rfl⟩

end Chianti
